import Mathlib

/-!
Verification of the KOS repository's quote-of-the-day store
(`src/repo/files/qotd/qotd.py`) and calculator
(`src/repo/files/calculator/calculator.py`) against their
natural-language specification.

The Python code is shallowly embedded: pure fragments become Lean
functions; file and console I/O become explicit values (the backing
file is an `Option Json` — `none` models a missing file, malformed
JSON or an I/O error, all of which raise before `data['quotes']` is
read); Python exceptions that the code catches become explicit
result values.
-/

namespace Qotd

/-- JSON values, as produced by Python's `json.load`.  Numbers are
modelled as integers (the quote data uses none); objects are
association lists with unique keys, as `json.load` returns `dict`s. -/
inductive Json where
  | null
  | bool (b : Bool)
  | num (n : Int)
  | str (s : String)
  | arr (elems : List Json)
  | obj (fields : List (String × Json))

/-- First value bound to `key` in an association list; models Python
`d[key]` on a `dict` (keys are unique there). -/
def lookupField : List (String × Json) → String → Option Json
  | [], _ => none
  | (k, v) :: rest, key => if k = key then some v else lookupField rest key

/-- Models the Python subscript `data[key]`: succeeds only when `data`
is a `dict` that has the key; any other case raises (`KeyError` /
`TypeError`), which `load_quotes` catches. -/
def jsonLookup : Json → String → Option Json
  | Json.obj fields, key => lookupField fields key
  | _, _ => none

/-- A quote record `{'text': ..., 'author': ...}` as built by
`QuoteManager.add_quote`. -/
structure Quote where
  text : String
  author : String
deriving DecidableEq

/-- The JSON encoding of one quote record, as `json.dump` serialises
the dict `{'text': text, 'author': author}`. -/
def quoteToJson (q : Quote) : Json :=
  Json.obj [("text", Json.str q.text), ("author", Json.str q.author)]

/-- Inverse of `quoteToJson`, used to state that a loaded collection
is exactly a given sequence of quote records. -/
def jsonToQuote (j : Json) : Option Quote :=
  match jsonLookup j "text", jsonLookup j "author" with
  | some (Json.str t), some (Json.str a) => some ⟨t, a⟩
  | _, _ => none

/-- Decode a list of JSON values as quote records, failing if any
element is not one. -/
def decodeQuoteList : List Json → Option (List Quote)
  | [] => some []
  | j :: rest =>
    match jsonToQuote j, decodeQuoteList rest with
    | some q, some qs => some (q :: qs)
    | _, _ => none

/-- Decode a JSON value as a sequence of quote records. -/
def decodeQuotes : Json → Option (List Quote)
  | Json.arr elems => decodeQuoteList elems
  | _ => none

/-- Result of `QuoteManager.load_quotes`: whether the `except` branch
ran (printing `Error loading quotes: {e}`) and the resulting value of
`self.quotes`.  On failure the collection is the empty list
(`Json.arr []`). -/
structure LoadResult where
  errorReported : Bool
  quotes : Json

/-- `QuoteManager.load_quotes`.  `file = none` models every way the
`open`/`json.load` prelude can raise (missing file, malformed JSON,
I/O error); otherwise `data['quotes']` is taken verbatim — the code
performs no validation of the value — and a `KeyError`/`TypeError`
from the subscript falls into the same `except` branch. -/
def load_quotes (file : Option Json) : LoadResult :=
  match file with
  | none => ⟨true, Json.arr []⟩
  | some data =>
    match jsonLookup data "quotes" with
    | none => ⟨true, Json.arr []⟩
    | some v => ⟨false, v⟩

/-- `QuoteManager.save_quotes` on its success path: the JSON object
written to the backing file, `{'quotes': self.quotes,
'last_updated': <today>}`. -/
def save_quotes (quotes : List Quote) (today : String) : Json :=
  Json.obj [("quotes", Json.arr (quotes.map quoteToJson)),
            ("last_updated", Json.str today)]

/-- Python `str.lower` on one character, for the ASCII range the
quote data uses. -/
def pyLowerChar (c : Char) : Char :=
  if 'A' ≤ c ∧ c ≤ 'Z' then Char.ofNat (c.toNat + 32) else c

/-- Python `str.lower`, for the ASCII range the quote data uses. -/
def pyLower (s : String) : String :=
  ⟨s.data.map pyLowerChar⟩

/-- Result of `QuoteManager.add_quote`: the returned Bool, the new
value of `self.quotes`, the messages printed, and whether
`save_quotes` was called. -/
structure AddResult where
  success : Bool
  quotes : List Quote
  messages : List String
  saved : Bool
deriving DecidableEq

/-- `QuoteManager.add_quote`.  Python `not text` on a string is true
exactly for the empty string, so the first guard rejects only exactly
empty arguments; the duplicate check compares `text` lower-cased
against each stored quote's `text` lower-cased. -/
def add_quote (quotes : List Quote) (text author : String) : AddResult :=
  if text = "" ∨ author = "" then
    ⟨false, quotes, [], false⟩
  else if quotes.any (fun q => pyLower q.text == pyLower text) then
    ⟨false, quotes, ["This quote already exists!"], false⟩
  else
    ⟨true, quotes ++ [⟨text, author⟩], [], true⟩

/-- `QuoteManager.list_quotes`: returns `self.quotes` unmodified. -/
def list_quotes (quotes : List Quote) : List Quote := quotes

/-- `QuoteManager.get_random_quote`.  `random.choice(seq)` is
`seq[i]` for an index `i` drawn uniformly from `[0, len(seq))`; the
draw is the extra argument, reduced modulo the length (which changes
nothing for the in-range indices Python draws). The guard
`if not self.quotes: return None` is the `quotes = []` case, where
the lookup below is `none` as well. -/
def get_random_quote (quotes : List Quote) (i : Nat) : Option Quote :=
  quotes[i % quotes.length]?

/-- The spec's uniqueness invariant: no two quotes in the collection
have `text` equal under case-insensitive comparison. -/
def QuotesInv (quotes : List Quote) : Prop :=
  quotes.Pairwise (fun a b => pyLower a.text ≠ pyLower b.text)

instance : DecidablePred QuotesInv := fun quotes =>
  inferInstanceAs (Decidable (quotes.Pairwise _))

/-- The observable behaviour `cli_app` dispatches to for a given
argument vector `sys.argv[1:]`. -/
inductive CliBehavior where
  | helpText
  | addFlow
  | listFlow
  | randomFlow
deriving DecidableEq

/-- The dispatch of `cli_app` in `qotd.py`: `if not args or args[0]
== 'help': print_help()`, then `add`, then `list`, and only otherwise
the `# Default: show random quote` branch. -/
def cli_dispatch (args : List String) : CliBehavior :=
  match args with
  | [] => CliBehavior.helpText
  | a :: _ =>
    if a = "help" then CliBehavior.helpText
    else if a = "add" then CliBehavior.addFlow
    else if a = "list" then CliBehavior.listFlow
    else CliBehavior.randomFlow

end Qotd

namespace Calculator

/-- Python `str.split()` with no argument: split on runs of
whitespace, discarding empty pieces.  `acc` holds the current word's
characters in reverse. -/
def pySplitAux : List Char → List Char → List String
  | [], acc => if acc.isEmpty then [] else [⟨acc.reverse⟩]
  | c :: cs, acc =>
    if c.isWhitespace then
      if acc.isEmpty then pySplitAux cs []
      else (⟨acc.reverse⟩ : String) :: pySplitAux cs []
    else pySplitAux cs (c :: acc)

/-- Python `str.split()` with no argument. -/
def pySplit (s : String) : List String := pySplitAux s.data []

/-- Digits of a numeral read left to right; `none` when a non-digit
appears.  The empty list yields `some 0` and is ruled out by the
callers. -/
def natOfDigits (cs : List Char) : Option Nat :=
  cs.foldl
    (fun acc c =>
      match acc with
      | none => none
      | some n => if c.isDigit then some (n * 10 + (c.toNat - 48)) else none)
    (some 0)

/-- A Python `float` value, modelled exactly as a fraction
`num / den` with `den ≠ 0` in every value the calculator builds.
Two values denote the same number when they cross-multiply equal;
the claims never compare result values, only control flow. -/
structure PyFloat where
  num : Int
  den : Int
deriving DecidableEq

/-- `a + b` on Python floats, exact. -/
def pyAdd (a b : PyFloat) : PyFloat :=
  ⟨a.num * b.den + b.num * a.den, a.den * b.den⟩

/-- `a - b` on Python floats, exact. -/
def pySub (a b : PyFloat) : PyFloat :=
  ⟨a.num * b.den - b.num * a.den, a.den * b.den⟩

/-- `a * b` on Python floats, exact. -/
def pyMul (a b : PyFloat) : PyFloat :=
  ⟨a.num * b.num, a.den * b.den⟩

/-- `a / b` on Python floats, exact; only reached with `b` nonzero. -/
def pyDiv (a b : PyFloat) : PyFloat :=
  ⟨a.num * b.den, a.den * b.num⟩

/-- Python `float(s)` on plain decimal literals: optional sign, then
digits with an optional single dot, at least one digit in all.
Exponents, `inf`/`nan`, underscores and surrounding whitespace are
left out — the calculator claims exercise only plain decimals — and
the value is kept exact. -/
def parseFloat (s : String) : Option PyFloat :=
  let withSign : Bool × List Char :=
    match s.data with
    | '-' :: r => (true, r)
    | '+' :: r => (false, r)
    | r => (false, r)
  let neg := withSign.1
  let body := withSign.2
  let intPart := body.takeWhile (fun c => c != '.')
  let rest := body.dropWhile (fun c => c != '.')
  let mk : Nat → Nat → Nat → PyFloat := fun n m k =>
    let v : Int := n * 10 ^ k + m
    ⟨if neg then -v else v, 10 ^ k⟩
  match rest with
  | [] =>
    if intPart.isEmpty then none
    else (natOfDigits intPart).map (fun n => mk n 0 0)
  | _ :: fracPart =>
    if intPart.isEmpty && fracPart.isEmpty then none
    else
      match natOfDigits intPart, natOfDigits fracPart with
      | some n, some m => some (mk n m fracPart.length)
      | _, _ => none

/-- `divide` in `calculator.py`: raises `ValueError("Cannot divide by
zero")` when the divisor compares equal to zero (`num = 0`, Python's
`b == 0`), the exception modelled as `Except.error`. -/
def divide (a b : PyFloat) : Except String PyFloat :=
  if b.num = 0 then Except.error "Cannot divide by zero" else Except.ok (pyDiv a b)

/-- What one iteration of the calculator loop does with an input
line.  Every constructor except `exited` prints a line and continues
the loop; `divideByZeroError` and `numberParseError` are the two
`ValueError`s printed as `Error: {e}` by the `except ValueError`
handler. -/
inductive CalcOutcome where
  | exited
  | invalidExpr
  | invalidOperator
  | numberParseError
  | divideByZeroError
  | result (r : PyFloat)
deriving DecidableEq

/-- One iteration of the `while True` loop in `cli_app` of
`calculator.py`, on the line read by `input()`.  Python evaluates
`float(parts[0])` and `float(parts[2])` before dispatching on the
operator, so a parse failure wins over a bad operator. -/
def calc_step (line : String) : CalcOutcome :=
  if Qotd.pyLower line = "exit" then CalcOutcome.exited
  else
    let parts := pySplit line
    if h : parts.length = 3 then
      match parseFloat parts[0], parseFloat parts[2] with
      | some a, some b =>
        let op := parts[1]
        if op = "+" then CalcOutcome.result (pyAdd a b)
        else if op = "-" then CalcOutcome.result (pySub a b)
        else if op = "*" then CalcOutcome.result (pyMul a b)
        else if op = "/" then
          match divide a b with
          | Except.ok r => CalcOutcome.result r
          | Except.error _ => CalcOutcome.divideByZeroError
        else CalcOutcome.invalidOperator
      | _, _ => CalcOutcome.numberParseError
    else CalcOutcome.invalidExpr

/-- The calculator session on a list of input lines: the loop runs
until an `exit` line breaks it (or input runs out), every other
outcome flowing into the next iteration. -/
def calc_session : List String → List CalcOutcome
  | [] => []
  | l :: ls =>
    let o := calc_step l
    if o = CalcOutcome.exited then [o] else o :: calc_session ls

end Calculator

open Qotd Calculator

/-- Decoding inverts the JSON encoding of one quote record. -/
theorem jsonToQuote_quoteToJson (q : Quote) : jsonToQuote (quoteToJson q) = some q := rfl

/-- Decoding inverts the JSON encoding of a quote sequence. -/
theorem decodeQuotes_encode (qs : List Quote) :
    decodeQuotes (Json.arr (qs.map quoteToJson)) = some qs := by
  induction qs with
  | nil => rfl
  | cons q rest ih =>
    simp only [decodeQuotes, List.map_cons, decodeQuoteList, jsonToQuote_quoteToJson]
    simp only [decodeQuotes] at ih
    rw [ih]

/-- C1: on any backing-file content on which loading fails (missing
file, malformed JSON, missing `quotes` key, I/O error), `load_quotes`
reports the error and sets the collection to the empty sequence;
otherwise, with no error, the collection is exactly the value parsed
from the file's `quotes` key.  `load_quotes` is a total function, so
it never raises, and no third, partially populated outcome exists. -/
theorem load_quotes_fail_safe_empty (file : Option Json) :
    ((load_quotes file).errorReported = true ∧
      (load_quotes file).quotes = Json.arr [] ∧
      (file = none ∨ ∃ data, file = some data ∧ jsonLookup data "quotes" = none)) ∨
    ((load_quotes file).errorReported = false ∧
      ∃ data, file = some data ∧
        jsonLookup data "quotes" = some (load_quotes file).quotes) := by
  cases file with
  | none => exact Or.inl ⟨rfl, rfl, Or.inl rfl⟩
  | some data =>
    cases h : jsonLookup data "quotes" with
    | none =>
      refine Or.inl ⟨?_, ?_, Or.inr ⟨data, rfl, h⟩⟩ <;> simp [load_quotes, h]
    | some v =>
      refine Or.inr ⟨?_, data, rfl, ?_⟩ <;> simp [load_quotes, h]

/-- C10: `load_quotes` validates nothing — whatever JSON value sits
under the `quotes` key becomes the in-memory collection verbatim,
with no error reported, whether or not it is a list of well-formed
records. -/
theorem load_quotes_no_validation (data v : Json)
    (h : jsonLookup data "quotes" = some v) :
    load_quotes (some data) = ⟨false, v⟩ := by
  simp [load_quotes, h]

/-- Witness for C10 at a backing file whose `quotes` value is the
number 42 — not a list of records at all — which load accepts
verbatim. -/
theorem load_quotes_no_validation_witness :
    jsonLookup (Json.obj [("quotes", Json.num 42)]) "quotes" = some (Json.num 42) ∧
    load_quotes (some (Json.obj [("quotes", Json.num 42)])) = ⟨false, Json.num 42⟩ :=
  ⟨rfl, load_quotes_no_validation _ _ rfl⟩

/-- C5: saving the in-memory collection and then loading the written
file back reports no error and reproduces the exact sequence of
quotes, order and content included. -/
theorem save_load_round_trip (qs : List Quote) (today : String) :
    (load_quotes (some (save_quotes qs today))).errorReported = false ∧
    decodeQuotes (load_quotes (some (save_quotes qs today))).quotes = some qs := by
  have hload : load_quotes (some (save_quotes qs today)) =
      ⟨false, Json.arr (qs.map quoteToJson)⟩ := by
    simp [load_quotes, save_quotes, jsonLookup, lookupField]
  rw [hload]
  exact ⟨rfl, decodeQuotes_encode qs⟩

/-- C2: whenever the given text equals, case-insensitively, the text
of some quote already stored, `add_quote` returns failure and leaves
the collection — in particular its length — unchanged, whatever the
author is. -/
theorem add_quote_duplicate_rejected (qs : List Quote) (text author : String)
    (hdup : ∃ q ∈ qs, pyLower q.text = pyLower text) :
    (add_quote qs text author).success = false ∧
    (add_quote qs text author).quotes = qs ∧
    (add_quote qs text author).quotes.length = qs.length := by
  have hany : qs.any (fun q => pyLower q.text == pyLower text) = true := by
    rcases hdup with ⟨q, hq, he⟩
    exact List.any_eq_true.mpr ⟨q, hq, by simp [he]⟩
  by_cases he : text = "" ∨ author = "" <;>
    simp [add_quote, he, hany]

/-- Witness for C2 at the spec's example: a store holding
`{"Be yourself", "Oscar Wilde"}` rejects `add_quote("BE YOURSELF",
"Anyone")` with the collection and its length unchanged. -/
theorem add_quote_duplicate_rejected_witness :
    (∃ q ∈ [Quote.mk "Be yourself" "Oscar Wilde"],
        pyLower q.text = pyLower "BE YOURSELF") ∧
    ((add_quote [Quote.mk "Be yourself" "Oscar Wilde"] "BE YOURSELF" "Anyone").success = false ∧
     (add_quote [Quote.mk "Be yourself" "Oscar Wilde"] "BE YOURSELF" "Anyone").quotes =
        [Quote.mk "Be yourself" "Oscar Wilde"] ∧
     (add_quote [Quote.mk "Be yourself" "Oscar Wilde"] "BE YOURSELF" "Anyone").quotes.length =
        ([Quote.mk "Be yourself" "Oscar Wilde"] : List Quote).length) :=
  ⟨by decide, add_quote_duplicate_rejected _ _ "Anyone" (by decide)⟩

/-- Counterexample to C3 as stated: `" "` is empty after trimming,
yet `add_quote([], " ", "Someone")` succeeds and appends the record;
and on the genuinely empty text `""` the rejection prints no message
at all (the CLI caller reports the failure). -/
theorem add_quote_whitespace_not_trimmed :
    (add_quote [] " " "Someone").success = true ∧
    (add_quote [] " " "Someone").quotes = [Quote.mk " " "Someone"] ∧
    (add_quote [] "" "Someone").success = false ∧
    (add_quote [] "" "Someone").messages = [] := by decide

/-- C3 as amended: for every text and author argument such that text
or author is exactly the empty string, `add_quote` returns failure
without mutating the collection, without saving and without printing
any message of its own. -/
theorem add_quote_empty_rejected (qs : List Quote) (text author : String)
    (h : text = "" ∨ author = "") :
    add_quote qs text author = ⟨false, qs, [], false⟩ := by
  unfold add_quote
  rw [if_pos h]

/-- Witness for the amended C3 at the spec's scenario 2:
`add_quote("", "Someone")` fails with the store unchanged. -/
theorem add_quote_empty_rejected_witness :
    (("" : String) = "" ∨ ("Someone" : String) = "") ∧
    add_quote [Quote.mk "Q" "A"] "" "Someone" =
      ⟨false, [Quote.mk "Q" "A"], [], false⟩ :=
  ⟨Or.inl rfl, add_quote_empty_rejected _ _ _ (Or.inl rfl)⟩

/-- C4: on non-empty text and author with no case-insensitive
duplicate present, `add_quote` appends exactly one record at the end,
triggers an immediate save, returns success, and `list_quotes` then
reports the extended collection. -/
theorem add_quote_success_appends (qs : List Quote) (text author : String)
    (ht : text ≠ "") (ha : author ≠ "")
    (hdup : ∀ q ∈ qs, pyLower q.text ≠ pyLower text) :
    add_quote qs text author = ⟨true, qs ++ [⟨text, author⟩], [], true⟩ ∧
    list_quotes (add_quote qs text author).quotes = qs ++ [⟨text, author⟩] := by
  have hor : ¬(text = "" ∨ author = "") := by
    rintro (h | h) <;> [exact ht h; exact ha h]
  have hany : qs.any (fun q => pyLower q.text == pyLower text) = false := by
    rw [List.any_eq_false]
    intro q hq
    simpa using hdup q hq
  constructor <;> simp [add_quote, list_quotes, hor, hany]

/-- Witness for C4 at the spec's scenario 1: on the empty store,
`add_quote("Test quote", "Tester")` succeeds, saves, and
`list_quotes` returns exactly that one record. -/
theorem add_quote_success_appends_witness :
    ("Test quote" ≠ "") ∧ ("Tester" ≠ "") ∧
    (∀ q ∈ ([] : List Quote), pyLower q.text ≠ pyLower "Test quote") ∧
    (add_quote [] "Test quote" "Tester" =
        ⟨true, [Quote.mk "Test quote" "Tester"], [], true⟩ ∧
     list_quotes (add_quote [] "Test quote" "Tester").quotes =
        [Quote.mk "Test quote" "Tester"]) :=
  ⟨by decide, by decide, by decide,
   add_quote_success_appends [] "Test quote" "Tester" (by decide) (by decide) (by decide)⟩

/-- Counterexample to C6 as stated: `load_quotes` validates nothing,
so a backing file whose `quotes` array holds two records with
case-insensitively equal texts (`"A"` and `"a"`) loads without error
into a collection that violates the uniqueness invariant. -/
theorem load_quotes_breaks_invariant :
    (load_quotes (some (Json.obj [("quotes",
        Json.arr [quoteToJson ⟨"A", "x"⟩, quoteToJson ⟨"a", "y"⟩])]))).errorReported
      = false ∧
    decodeQuotes (load_quotes (some (Json.obj [("quotes",
        Json.arr [quoteToJson ⟨"A", "x"⟩, quoteToJson ⟨"a", "y"⟩])]))).quotes
      = some [⟨"A", "x"⟩, ⟨"a", "y"⟩] ∧
    ¬ QuotesInv [⟨"A", "x"⟩, ⟨"a", "y"⟩] := by decide

/-- C6 as amended: the uniqueness invariant is preserved by
`add_quote` and `list_quotes` from any state satisfying it, and
loading a file that `save_quotes` wrote from such a state reproduces
exactly that state; but `load_quotes` does not validate arbitrary
backing-file contents, which can therefore violate the invariant. -/
theorem quotes_invariant_preserved (qs : List Quote) (text author today : String)
    (hinv : QuotesInv qs) :
    QuotesInv (add_quote qs text author).quotes ∧
    QuotesInv (list_quotes qs) ∧
    decodeQuotes (load_quotes (some (save_quotes qs today))).quotes = some qs := by
  refine ⟨?_, hinv, (save_load_round_trip qs today).2⟩
  by_cases he : text = "" ∨ author = ""
  · simpa [add_quote, he] using hinv
  · by_cases hd : qs.any (fun q => pyLower q.text == pyLower text) = true
    · simpa [add_quote, he, hd] using hinv
    · have hd' : ∀ q ∈ qs, pyLower q.text ≠ pyLower text := by
        rw [Bool.not_eq_true, List.any_eq_false] at hd
        intro q hq
        simpa using hd q hq
      have : (add_quote qs text author).quotes = qs ++ [⟨text, author⟩] := by
        simp [add_quote, he, hd]
      rw [QuotesInv, this, List.pairwise_append]
      exact ⟨hinv, List.pairwise_singleton _ _,
        fun a ha b hb => by
          rw [List.mem_singleton] at hb
          subst hb
          exact hd' a ha⟩

/-- Witness for the amended C6: a singleton invariant store stays
invariant through an `add_quote` and survives a save/load cycle
unchanged. -/
theorem quotes_invariant_preserved_witness :
    QuotesInv [Quote.mk "Be yourself" "Oscar Wilde"] ∧
    (QuotesInv (add_quote [Quote.mk "Be yourself" "Oscar Wilde"]
        "Stay hungry" "Steve Jobs").quotes ∧
     QuotesInv (list_quotes [Quote.mk "Be yourself" "Oscar Wilde"]) ∧
     decodeQuotes (load_quotes (some (save_quotes
        [Quote.mk "Be yourself" "Oscar Wilde"] "2026-10-12"))).quotes =
       some [Quote.mk "Be yourself" "Oscar Wilde"]) :=
  ⟨by decide,
   quotes_invariant_preserved _ "Stay hungry" "Steve Jobs" "2026-10-12" (by decide)⟩

/-- C7: `get_random_quote` is empty exactly on the empty collection;
any quote it returns is a member of the collection; and on the
uniformly drawn in-range indices it is exactly positional lookup, so
the choice is uniform over the collection's positions.  It takes the
collection as a value and returns only the chosen quote, so it cannot
mutate the collection. -/
theorem get_random_quote_spec (qs : List Quote) (i : Nat) :
    (get_random_quote qs i = none ↔ qs = []) ∧
    (∀ q, get_random_quote qs i = some q → q ∈ qs) ∧
    (∀ j, j < qs.length → get_random_quote qs j = qs[j]?) := by
  refine ⟨⟨fun h => ?_, fun h => ?_⟩, fun q h => ?_, fun j hj => ?_⟩
  · by_contra hne
    have hlen : 0 < qs.length := List.length_pos.mpr hne
    have hlt : i % qs.length < qs.length := Nat.mod_lt i hlen
    rw [get_random_quote, List.getElem?_eq_none_iff] at h
    omega
  · subst h
    rfl
  · exact List.getElem?_mem h
  · rw [get_random_quote, Nat.mod_eq_of_lt hj]

/-- Witness for C7 on a two-quote store with the draw 5: the result
is non-empty, a member of the store, and equal to positional lookup
at the in-range index 1. -/
theorem get_random_quote_spec_witness :
    (get_random_quote [Quote.mk "a" "b", Quote.mk "c" "d"] 5 = none ↔
      ([Quote.mk "a" "b", Quote.mk "c" "d"] : List Quote) = []) ∧
    Quote.mk "c" "d" ∈ [Quote.mk "a" "b", Quote.mk "c" "d"] ∧
    (1 < ([Quote.mk "a" "b", Quote.mk "c" "d"] : List Quote).length ∧
     get_random_quote [Quote.mk "a" "b", Quote.mk "c" "d"] 1 =
       [Quote.mk "a" "b", Quote.mk "c" "d"][1]?) :=
  ⟨(get_random_quote_spec [Quote.mk "a" "b", Quote.mk "c" "d"] 5).1,
   (get_random_quote_spec [Quote.mk "a" "b", Quote.mk "c" "d"] 5).2.1
      (Quote.mk "c" "d") (by decide),
   by decide,
   (get_random_quote_spec [Quote.mk "a" "b", Quote.mk "c" "d"] 1).2.2 1 (by decide)⟩

/-- C8: invoked with no command-line argument, the quote tool's
dispatcher runs the help branch, not the random-quote branch — the
code's own help text and the `Default: show random quote` comment
say a bare invocation should print a random quote. -/
theorem cli_no_args_shows_help :
    cli_dispatch [] = CliBehavior.helpText ∧
    cli_dispatch [] ≠ CliBehavior.randomFlow := by decide

/-- C9: an input line that splits into `<number> / <number>` with the
divisor parsing to numeric zero makes the calculator loop report the
divide-by-zero `ValueError` as a handled error, and the session goes
on to process the remaining input lines rather than terminating. -/
theorem calc_divide_by_zero_handled (line sa sb : String) (a b : PyFloat)
    (rest : List String)
    (hexit : Qotd.pyLower line ≠ "exit")
    (hsplit : pySplit line = [sa, "/", sb])
    (ha : parseFloat sa = some a)
    (hb : parseFloat sb = some b) (hb0 : b.num = 0) :
    calc_step line = CalcOutcome.divideByZeroError ∧
    calc_session (line :: rest) = CalcOutcome.divideByZeroError :: calc_session rest := by
  have hstep : calc_step line = CalcOutcome.divideByZeroError := by
    unfold calc_step
    rw [if_neg hexit]
    simp [hsplit, ha, hb, divide, hb0]
  refine ⟨hstep, ?_⟩
  rw [calc_session]
  simp [hstep]

/-- Witness for C9 at the spec's scenario 3: the line `"10 / 0"`
yields the handled divide-by-zero error and the session continues. -/
theorem calc_divide_by_zero_handled_witness :
    Qotd.pyLower "10 / 0" ≠ "exit" ∧
    pySplit "10 / 0" = ["10", "/", "0"] ∧
    parseFloat "10" = some ⟨10, 1⟩ ∧
    parseFloat "0" = some ⟨0, 1⟩ ∧
    (PyFloat.mk 0 1).num = 0 ∧
    (calc_step "10 / 0" = CalcOutcome.divideByZeroError ∧
     calc_session ["10 / 0"] = CalcOutcome.divideByZeroError :: calc_session []) :=
  ⟨by decide, by decide, by decide, by decide, rfl,
   calc_divide_by_zero_handled "10 / 0" "10" "0" ⟨10, 1⟩ ⟨0, 1⟩ []
     (by decide) (by decide) (by decide) (by decide) rfl⟩
